import Mathlib

/-
Verification development for the movie-journal linking pipeline:
the journal parser (parsers/log.py), the data model (models.py) and the
linker (linker.py) are shallowly embedded as executable Lean functions,
and the behavioural claims about them are settled as theorems.

Python strings are modelled as Lean `String` / `List Char`; Python's
`None`-able values as `Option`; the assertion failure raised by the
linker on an ambiguous match as the error branch of `Except`.
All inputs of interest are single text lines without newline characters,
and all whitespace appearing in them is ASCII, so Python's `\s`,
`str.strip` and `str.lower` are modelled at ASCII precision.
-/

namespace MovieJournal

/-! ## Python string primitives -/

/-- Whitespace as matched by Python's `\s` / stripped by `str.strip`
(ASCII range: space, tab, newline, carriage return, vertical tab, form feed). -/
def isPySpace (c : Char) : Bool :=
  c = ' ' || c = '\t' || c = '\n' || c = '\r' || c = '\x0b' || c = '\x0c'

/-- Python `str.strip()`: remove leading and trailing whitespace. -/
def pyStrip (l : List Char) : List Char :=
  ((l.dropWhile isPySpace).reverse.dropWhile isPySpace).reverse

theorem length_dropWhile_le (p : Char → Bool) (l : List Char) :
    (l.dropWhile p).length ≤ l.length := by
  induction l with
  | nil => simp [List.dropWhile]
  | cons x xs ih =>
    simp only [List.dropWhile]
    by_cases hx : p x
    · simp only [hx]
      exact Nat.le_succ_of_le ih
    · simp [hx]

/-- Worker for `collapseWs`: the flag records whether the previous
character belonged to a whitespace run whose single space was already
emitted. -/
def collapseWsAux : Bool → List Char → List Char
  | _, [] => []
  | inWs, c :: rest =>
    if isPySpace c then
      if inWs then collapseWsAux true rest
      else ' ' :: collapseWsAux true rest
    else c :: collapseWsAux false rest

/-- Python `re.sub(r"\s+", " ", line)`: collapse every maximal whitespace
run to a single space. -/
def collapseWs (l : List Char) : List Char :=
  collapseWsAux false l

/-- Does `p` occur at the very start of `l`? -/
def leadsWith : List Char → List Char → Bool
  | [], _ => true
  | _ :: _, [] => false
  | p :: ps, c :: cs => p = c && leadsWith ps cs

theorem leadsWith_length {p l : List Char} (h : leadsWith p l = true) :
    p.length ≤ l.length := by
  induction p generalizing l with
  | nil => simp
  | cons x xs ih =>
    cases l with
    | nil => simp [leadsWith] at h
    | cons c cs =>
      simp only [leadsWith, Bool.and_eq_true] at h
      simpa using ih h.2

/-- Python `needle in haystack` (substring containment), for a nonempty
needle: scan every suffix for the needle at its head. -/
def listContains (pat : List Char) : List Char → Bool
  | [] => false
  | c :: rest => leadsWith pat (c :: rest) || listContains pat rest

/-- Python `needle in haystack` on strings. -/
def containsStr (s pat : String) : Bool :=
  listContains pat.data s.data

/-- Worker for `listReplace`, structurally recursive on a fuel counter.
Each step consumes at least one character when the pattern is nonempty,
so fuel equal to the list length is never exhausted. -/
def listReplaceAux (pat rep : List Char) : Nat → List Char → List Char
  | 0, l => l
  | _ + 1, [] => []
  | fuel + 1, c :: rest =>
    if leadsWith pat (c :: rest) then
      rep ++ listReplaceAux pat rep fuel ((c :: rest).drop pat.length)
    else c :: listReplaceAux pat rep fuel rest

/-- Python `str.replace(pat, rep)` for a nonempty `pat`: replace every
non-overlapping occurrence, scanning left to right. -/
def listReplace (pat rep l : List Char) : List Char :=
  listReplaceAux pat rep l.length l

/-- Python `str.replace` on strings. -/
def strReplace (s pat rep : String) : String :=
  String.mk (listReplace pat.data rep.data s.data)

/-- Worker for `pySplit`, structurally recursive on a fuel counter; the
first argument accumulates the current segment in reverse. -/
def pySplitAux (sep : List Char) (acc : List Char) :
    Nat → List Char → List (List Char)
  | 0, l => [acc.reverse ++ l]
  | _ + 1, [] => [acc.reverse]
  | fuel + 1, c :: rest =>
    if leadsWith sep (c :: rest) then
      acc.reverse :: pySplitAux sep [] fuel ((c :: rest).drop sep.length)
    else pySplitAux sep (c :: acc) fuel rest

/-- Python `str.split(sep)` for a nonempty separator: split at every
non-overlapping occurrence, scanning left to right; always returns at
least one (possibly empty) segment. -/
def pySplit (sep l : List Char) : List (List Char) :=
  pySplitAux sep [] l.length l

/-- Python `str.lower()` at ASCII precision (`Char.toLower` maps A–Z to
a–z and fixes everything else; the titles at issue are ASCII). -/
def pyLower (s : String) : String :=
  String.mk (s.data.map Char.toLower)

/-- Split a character list at the first occurrence of `c`: returns the
part strictly before it and the part strictly after it. -/
def splitFirst (c : Char) : List Char → Option (List Char × List Char)
  | [] => none
  | x :: xs =>
    if x = c then some ([], xs)
    else (splitFirst c xs).map (fun p => (x :: p.1, p.2))

theorem splitFirst_snd_length {c : Char} :
    ∀ {l a b : List Char}, splitFirst c l = some (a, b) → b.length ≤ l.length := by
  intro l
  induction l with
  | nil => intro a b h; simp [splitFirst] at h
  | cons x xs ih =>
    intro a b h
    by_cases hx : x = c
    · rw [splitFirst, if_pos hx] at h
      injection h with h'
      injection h' with h1 h2
      subst h2
      simp only [List.length_cons]
      omega
    · rw [splitFirst, if_neg hx] at h
      cases hsp : splitFirst c xs with
      | none => rw [hsp] at h; simp at h
      | some p =>
        rw [hsp] at h
        simp only [Option.map] at h
        injection h with h'
        injection h' with h1 h2
        subst h2
        have := ih (a := p.1) (b := p.2) (by rw [hsp])
        simp only [List.length_cons]
        omega

/-! ## The two bracket regexes of parsers/log.py

`re.search` / `re.sub` with the patterns `\[(tt.*?)\]` and `\[bf:(.*?)\]`:
leftmost match wins, the non-greedy `.*?` runs up to the first following
`]`, and `re.sub` removes every non-overlapping match left to right.
(`.` not matching a newline is immaterial: inputs are single lines.) -/

/-- Match `\[(tt.*?)\]` anchored at the head of the list: on success,
returns the capture group (starting with `tt`) and the characters after
the closing `]`. -/
def ttMatchAt : List Char → Option (List Char × List Char)
  | '[' :: 't' :: 't' :: rest =>
    (splitFirst ']' rest).map (fun p => ('t' :: 't' :: p.1, p.2))
  | _ => none

theorem ttMatchAt_snd_length {l g after : List Char}
    (h : ttMatchAt l = some (g, after)) : after.length < l.length := by
  unfold ttMatchAt at h
  split at h
  · rename_i rest
    cases hsp : splitFirst ']' rest with
    | none => rw [hsp] at h; simp at h
    | some p =>
      rw [hsp] at h
      simp only [Option.map] at h
      injection h with h'
      injection h' with h1 h2
      subst h2
      have := splitFirst_snd_length (a := p.1) (b := p.2) (by rw [hsp])
      simp only [List.length_cons]
      omega
  · simp at h

/-- Python `re.search(r"\[(tt.*?)\]", line)`: the capture group of the
leftmost match, if any. -/
def searchTt : List Char → Option (List Char)
  | [] => none
  | c :: rest =>
    match ttMatchAt (c :: rest) with
    | some (g, _) => some g
    | none => searchTt rest

/-- Worker for `removeTt`, structurally recursive on a fuel counter.
By `ttMatchAt_snd_length` every step strictly shrinks the character
list, so fuel equal to the list length (as supplied by `removeTt`) is
never exhausted; the fuel-out branch returns the list unchanged. -/
def removeTtAux : Nat → List Char → List Char
  | 0, l => l
  | _ + 1, [] => []
  | fuel + 1, c :: rest =>
    match ttMatchAt (c :: rest) with
    | some (_, after) => removeTtAux fuel after
    | none => c :: removeTtAux fuel rest

/-- Python `re.sub(r"\[(tt.*?)\]", "", line)`: remove every
non-overlapping match, scanning left to right. -/
def removeTt (l : List Char) : List Char :=
  removeTtAux l.length l

/-- Match `\[bf:(.*?)\]` anchored at the head of the list: on success,
returns the capture group and the characters after the closing `]`. -/
def bfMatchAt : List Char → Option (List Char × List Char)
  | '[' :: 'b' :: 'f' :: ':' :: rest => splitFirst ']' rest
  | _ => none

theorem bfMatchAt_snd_length {l g after : List Char}
    (h : bfMatchAt l = some (g, after)) : after.length < l.length := by
  unfold bfMatchAt at h
  split at h
  · have := splitFirst_snd_length h
    simp only [List.length_cons]
    omega
  · simp at h

/-- Python `re.search(r"\[bf:(.*?)\]", line)`: the capture group of the
leftmost match, if any. -/
def searchBf : List Char → Option (List Char)
  | [] => none
  | c :: rest =>
    match bfMatchAt (c :: rest) with
    | some (g, _) => some g
    | none => searchBf rest

/-- Worker for `removeBf`, structurally recursive on a fuel counter;
see `removeTtAux` (the shrinking fact here is `bfMatchAt_snd_length`). -/
def removeBfAux : Nat → List Char → List Char
  | 0, l => l
  | _ + 1, [] => []
  | fuel + 1, c :: rest =>
    match bfMatchAt (c :: rest) with
    | some (_, after) => removeBfAux fuel after
    | none => c :: removeBfAux fuel rest

/-- Python `re.sub(r"\[bf:(.*?)\]", "", line)`: remove every
non-overlapping match, scanning left to right. -/
def removeBf (l : List Char) : List Char :=
  removeBfAux l.length l

/-! ## The trailing-year regex of parse_single_entry

Pattern `^(.*?)(?:\s*\(\s*([’']?\d{2,4})\s*\))?$`, used with `.match`.
On a newline-free line the pattern always matches; the optional group
matches iff the line ends, modulo the rigid suffix shape, in
`( quote? digits )` with the contiguous digit run of length 2–4 and the
final `)` the very last character (`$` allows no trailing text).  The
lazy `(.*?)` makes group 1 end before the greedy `\s*` preceding `(`. -/

/-- Evaluate the optional year group of the pattern against the end of
the line: on success, returns group 1 (the text before `\s*(`) and
group 2 (optional quote plus digits). -/
def matchYearSuffix (l : List Char) : Option (List Char × List Char) :=
  match l.reverse with
  | ')' :: r1 =>
    let r2 := r1.dropWhile isPySpace
    let digitsRev := r2.takeWhile Char.isDigit
    let r3 := r2.dropWhile Char.isDigit
    if 2 ≤ digitsRev.length ∧ digitsRev.length ≤ 4 then
      let qr : List Char × List Char :=
        match r3 with
        | c :: rest => if c = '\'' ∨ c = '’' then ([c], rest) else ([], r3)
        | [] => ([], r3)
      match qr.2.dropWhile isPySpace with
      | '(' :: r6 => some ((r6.dropWhile isPySpace).reverse, qr.1 ++ digitsRev.reverse)
      | _ => none
    else none
  | _ => none

/-- Python `raw_year.replace("’", "'")` then `lstrip("'")` as applied to
the year group (the group is quote? + digits, so `strip()` is a no-op). -/
def normYear (g : List Char) : List Char :=
  (g.map (fun c => if c = '’' then '\'' else c)).dropWhile (· = '\'')

/-! ## models.py -/

/-- models.ImdbEntry: one reference-catalog record.  All five fields are
strings as produced by parsers/imdb.py from the CSV rows. -/
structure ImdbEntry where
  tid : String
  title : String
  year : String
  director : String
  composer : String
deriving DecidableEq, Repr

/-- models.JournalEntry: one watched-film log entry.  `_tid` is the
explicit user-supplied identifier, `imdb` the attached catalog record
(`None` = `none`).  `position` and `subnum` are the nonnegative integers
produced by the parser's `enumerate` counters. -/
structure JournalEntry where
  position : Nat
  subnum : Nat
  title : String
  mark : Option String
  year : Option String
  _tid : Option String
  backfill : Option String
  imdb : Option ImdbEntry := none
deriving DecidableEq, Repr

/-- models.JournalEntry.tid:
`self.imdb.tid if (self.imdb and self.imdb.tid) else self._tid` —
an attached `imdb` record is always truthy, and its `tid` string is
truthy iff nonempty. -/
def JournalEntry.tid (j : JournalEntry) : Option String :=
  match j.imdb with
  | some m => if m.tid ≠ "" then some m.tid else j._tid
  | none => j._tid

/-- models.JournalEntry.__eq__ as written in the source, including the
`self.subnum == self.subnum` comparison (transcribed verbatim from
models.py lines 36-45; note it compares `self.subnum` with itself). -/
def JournalEntry.pyEq (self other : JournalEntry) : Bool :=
  self.position = other.position
    ∧ self.subnum = self.subnum
    ∧ self.title = other.title

/-- models.JournalEntry.__hash__: `hash((position, subnum, title))` —
the hash is a function of exactly this triple. -/
def JournalEntry.pyHashKey (self : JournalEntry) : Nat × Nat × String :=
  (self.position, self.subnum, self.title)

/-! ## parsers/log.py -/

/-- The entry type constructed by parsers/log.py's `parse_single_entry`:
`LogEntry(num, subnum, title, icon, year, tid)`.  models.py defines no
`LogEntry` class (its nearest type, `JournalEntry`, additionally
requires a `backfill` argument); this structure records exactly the six
values the call site passes, in order. -/
structure LogEntry where
  position : Nat
  subnum : Nat
  title : String
  mark : Option String
  year : Option String
  tid : Option String
deriving DecidableEq, Repr

/-- parse_and_remove_mark (parsers/log.py lines 6-21): detect the mark
glyph, then replace each of `"(bomb)"`, `" *"`, `"✓"` by a single
space, collapse whitespace runs and strip. -/
def parse_and_remove_mark (line : String) : Option String × String :=
  let icon : Option String :=
    if containsStr line "*" then some "⭐"
    else if containsStr line "✓" then some "✅"
    else if containsStr line "(bomb)" then some "💣"
    else none
  let line := strReplace (strReplace (strReplace line "(bomb)" " ") " *" " ") "✓" " "
  (icon, String.mk (pyStrip (collapseWs line.data)))

/-- parse_and_remove_tid (parsers/log.py lines 24-33): find and remove a
`[tt...]` token; on a match the remaining line is whitespace-collapsed
and stripped, otherwise it is returned untouched. -/
def parse_and_remove_tid (line : String) : Option String × String :=
  match searchTt line.data with
  | some g =>
    (some (String.mk g), String.mk (pyStrip (collapseWs (removeTt line.data))))
  | none => (none, line)

/-- parse_and_remove_backfill (parsers/log.py lines 36-44): find and
remove a `[bf:...]` token; the captured text is stripped but — unlike
parse_and_remove_tid — the remaining line is neither collapsed nor
stripped. -/
def parse_and_remove_backfill (line : String) : Option String × String :=
  match searchBf line.data with
  | some g => (some (String.mk (pyStrip g)), String.mk (removeBf line.data))
  | none => (none, line)

/-- parse_single_entry (parsers/log.py lines 47-63).  Note that the
`backfill` value is computed and then discarded: the constructor call
at line 63 is `LogEntry(num, subnum, title, icon, year, tid)`, with no
backfill argument. -/
def parse_single_entry (line : String) (num subnum : Nat) : LogEntry :=
  let p1 := parse_and_remove_mark line
  let icon := p1.1
  let p2 := parse_and_remove_tid p1.2
  let tid := p2.1
  let p3 := parse_and_remove_backfill p2.2
  let _backfill := p3.1
  let line := p3.2
  match matchYearSuffix line.data with
  | some (pre, grp) =>
    ⟨num, subnum, String.mk (pyStrip pre), icon, some (String.mk (normYear grp)), tid⟩
  | none =>
    ⟨num, subnum, String.mk (pyStrip line.data), icon, none, tid⟩

/-- parse_line_entries (parsers/log.py lines 66-70): split the line on
`" :: "` and parse each segment with its 0-based index as `subnum`. -/
def parse_line_entries (line : String) (num : Nat) : List LogEntry :=
  (pySplit " :: ".data line.data).enum.map
    (fun p => parse_single_entry (String.mk p.2) num p.1)

/-! ## linker.py (ImdbTidMapper)

The grouped index `dict[tuple[str, str | None], list[ImdbEntry]]` is
embedded as an insertion-ordered association list; `dict.get` is the
first (and only, keys being unique by construction) association for the
key.  Catalog years are strings, so grouping keys carry `some`; journal
lookup keys carry the entry's optional year directly — a year-less
journal entry can never match a catalog key, exactly as the Python
tuples `(t, None)` vs `(t, "1999")` compare unequal.

The lazy `_load_or_generate_title_year_mappings` side effect is made
explicit: `assign_tids` takes the grouped index that a load would yield
and additionally reports whether the load was performed at all (the
`Bool` in the result).  The `assert len(matches) == 1` failure is the
`Except.error` branch, carrying the data interpolated into the
assertion message `f"Multiple IMDb IDs found for {j.title}: {matches}"`:
the entry's title and the matched catalog entries. -/

/-- Key of the grouped index: `(title.lower(), year)`. -/
def groupKey (m : ImdbEntry) : String × Option String :=
  (pyLower m.title, some m.year)

/-- The grouped-index type: insertion-ordered association list. -/
def TYMap : Type :=
  List ((String × Option String) × List ImdbEntry)

/-- Python `dict.get(key)` on the grouped index. -/
def lookupTY (m : TYMap) (k : String × Option String) : Option (List ImdbEntry) :=
  match m with
  | [] => none
  | (k', v) :: rest => if k' = k then some v else lookupTY rest k

/-- One step of `_group_by_title_year`'s loop:
`d[m.title.lower(), m.year].append(m)` on a defaultdict — append to the
existing bucket, or append a fresh singleton bucket at the end (dict
insertion order). -/
def addToGroup (m : TYMap) (k : String × Option String) (e : ImdbEntry) : TYMap :=
  match m with
  | [] => [(k, [e])]
  | (k', v) :: rest =>
    if k' = k then (k', v ++ [e]) :: rest else (k', v) :: addToGroup rest k e

/-- ImdbTidMapper._group_by_title_year (linker.py lines 38-43). -/
def group_by_title_year (imdbs : List ImdbEntry) : TYMap :=
  imdbs.foldl (fun d m => addToGroup d (groupKey m) m) []

/-- The data carried by the linker's assertion failure message
`f"Multiple IMDb IDs found for {j.title}: {matches}"`. -/
structure AmbiguousMatch where
  title : String
  cands : List ImdbEntry
deriving DecidableEq, Repr

/-- Decidable equality of `Except` results, so that concrete linker
runs can be checked by `decide`. -/
instance {α β : Type} [DecidableEq α] [DecidableEq β] :
    DecidableEq (Except α β) := fun x y =>
  match x, y with
  | .error a, .error b =>
    if h : a = b then .isTrue (h ▸ rfl)
    else .isFalse (fun hc => h (Except.error.inj hc))
  | .ok a, .ok b =>
    if h : a = b then .isTrue (h ▸ rfl)
    else .isFalse (fun hc => h (Except.ok.inj hc))
  | .error _, .ok _ => .isFalse (fun hc => Except.noConfusion hc)
  | .ok _, .error _ => .isFalse (fun hc => Except.noConfusion hc)

/-- The copy `JournalEntry(**asdict(j) | {'_tid': matches[0].tid})`:
every field of `j` is kept and `_tid` is replaced.  (`asdict` also
rebuilds the nested `imdb` record from its field dictionary; at typed
level the attached record's content is unchanged.) -/
def setTid (j : JournalEntry) (t : String) : JournalEntry :=
  { j with _tid := some t }

/-- The body of the `assign_tids` loop for a single entry
(linker.py lines 83-90): an entry whose `tid` is already set, or whose
key has no (or an empty) bucket, passes through unchanged; a singleton
bucket assigns its entry's tid; a larger bucket trips the assertion. -/
def resolveEntry (m : TYMap) (j : JournalEntry) : Except AmbiguousMatch JournalEntry :=
  if j.tid.isSome then .ok j
  else
    match lookupTY m (pyLower j.title, j.year) with
    | none => .ok j
    | some [] => .ok j
    | some [a] => .ok (setTid j a.tid)
    | some ms => .error ⟨j.title, ms⟩

/-- The `assign_tids` loop over the journal: left to right, first
assertion failure aborts the run. -/
def assignTidsCore (m : TYMap) : List JournalEntry → Except AmbiguousMatch (List JournalEntry)
  | [] => .ok []
  | j :: rest =>
    match resolveEntry m j with
    | .error e => .error e
    | .ok j' =>
      match assignTidsCore m rest with
      | .error e => .error e
      | .ok out => .ok (j' :: out)

/-- ImdbTidMapper.assign_tids (linker.py lines 75-92).  `m` is the
grouped index `_load_or_generate_title_year_mappings` would return; the
`Bool` in the result records whether that load was performed (`false`
on the early exit, which returns the journal as is). -/
def assign_tids (m : TYMap) (journal : List JournalEntry) :
    Except AmbiguousMatch (List JournalEntry × Bool) :=
  if journal.all (fun j => j.tid.isSome) then .ok (journal, false)
  else
    match assignTidsCore m journal with
    | .error e => .error e
    | .ok out => .ok (out, true)

/-- The copy `JournalEntry(**(asdict(j) | {'imdb': m}))`: every field of
`j` is kept and `imdb` is replaced. -/
def setImdb (j : JournalEntry) (m : ImdbEntry) : JournalEntry :=
  { j with imdb := some m }

/-- Python `self._tid_imdbs.get(tid)`: the tid → catalog-record index. -/
def lookupTid (d : List (String × ImdbEntry)) (t : String) : Option ImdbEntry :=
  match d with
  | [] => none
  | (k, v) :: rest => if k = t then some v else lookupTid rest t

/-- The body of the `assign_imdbs` loop for a single entry
(linker.py lines 98-101):
`if j.imdb is None and j.tid and (m := self._tid_imdbs.get(j.tid))` —
`j.tid` is truthy iff present and nonempty, and a found record is
always truthy. -/
def enrichEntry (d : List (String × ImdbEntry)) (j : JournalEntry) : JournalEntry :=
  match j.imdb, j.tid with
  | none, some t =>
    if t ≠ "" then
      match lookupTid d t with
      | some m => setImdb j m
      | none => j
    else j
  | _, _ => j

/-- ImdbTidMapper.assign_imdbs (linker.py lines 94-102). -/
def assign_imdbs (d : List (String × ImdbEntry)) (journal : List JournalEntry) :
    List JournalEntry :=
  journal.map (enrichEntry d)

/-! ## Helper lemmas -/

theorem tid_isSome_of_explicit {j : JournalEntry} (h : j._tid.isSome) :
    j.tid.isSome := by
  unfold JournalEntry.tid
  cases j.imdb with
  | none => exact h
  | some m =>
    by_cases hm : m.tid ≠ ""
    · simp [hm]
    · simp [hm, h]

theorem resolveEntry_of_tid_some {m : TYMap} {j : JournalEntry}
    (h : j.tid.isSome) : resolveEntry m j = .ok j := by
  unfold resolveEntry
  simp [h]

/-- Pointwise description of a successful `assignTidsCore` run: the
output has the input's length and each output entry is the
`resolveEntry` image of the corresponding input entry. -/
theorem assignTidsCore_ok_pointwise {m : TYMap} :
    ∀ {journal out : List JournalEntry},
      assignTidsCore m journal = .ok out →
      out.length = journal.length ∧
        ∀ i (h1 : i < journal.length) (h2 : i < out.length),
          resolveEntry m (journal.get ⟨i, h1⟩) = .ok (out.get ⟨i, h2⟩) := by
  intro journal
  induction journal with
  | nil =>
    intro out h
    rw [assignTidsCore] at h
    injection h with h'
    subst h'
    exact ⟨rfl, fun i h1 _ => absurd h1 (Nat.not_lt_zero i)⟩
  | cons j rest ih =>
    intro out h
    rw [assignTidsCore] at h
    cases hr : resolveEntry m j with
    | error e => rw [hr] at h; simp at h
    | ok j' =>
      rw [hr] at h
      cases hc : assignTidsCore m rest with
      | error e => rw [hc] at h; simp at h
      | ok out' =>
        rw [hc] at h
        injection h with h'
        subst h'
        obtain ⟨hlen, hpt⟩ := ih hc
        refine ⟨by simp [hlen], ?_⟩
        intro i h1 h2
        match i with
        | 0 => simpa using hr
        | Nat.succ i' =>
          simp only [List.get_cons_succ]
          exact hpt i' (Nat.lt_of_succ_lt_succ h1) (Nat.lt_of_succ_lt_succ h2)

/-! ## Claim theorems -/

/-- Claim C4, counterexample: on an entry carrying both an explicit identifier
and an attached catalog record with a different id, the derived `tid` is
the catalog record's id, not the explicit one — the explicit identifier
does not win, contrary to the claim. -/
theorem C4_counterexample :
    (JournalEntry.mk 1 0 "x" none none (some "tt0000001") none
        (some ⟨"tt0000002", "x", "2000", "", ""⟩)).tid = some "tt0000002" ∧
      (JournalEntry.mk 1 0 "x" none none (some "tt0000001") none
        (some ⟨"tt0000002", "x", "2000", "", ""⟩))._tid = some "tt0000001" ∧
      ("tt0000002" : String) ≠ "tt0000001" := by
  refine ⟨rfl, rfl, by decide⟩

/-- Claim C4, amended: the derived `tid` equals the attached catalog record's
id whenever a record with a nonempty id is attached, and only otherwise
falls back to the explicit `_tid`; with no record attached (or one with
an empty id) it is the explicit `_tid`, absent if that is absent.  When
both are present with different ids, the catalog record's id wins. -/
theorem C4_tid_prefers_catalog (j : JournalEntry) :
    (j.imdb = none → j.tid = j._tid) ∧
      (∀ m, j.imdb = some m → m.tid ≠ "" → j.tid = some m.tid) ∧
      (∀ m, j.imdb = some m → m.tid = "" → j.tid = j._tid) := by
  unfold JournalEntry.tid
  refine ⟨fun h => by rw [h], fun m hm hne => ?_, fun m hm he => ?_⟩
  · rw [hm]; simp [hne]
  · rw [hm]; simp [he]

/-- Claim C4, witness for the amended theorem at a concrete entry. -/
theorem C4_tid_prefers_catalog_witness :
    (JournalEntry.mk 7 0 "w" none none (some "tt0000009") none
        (some ⟨"tt0000008", "w", "1990", "", ""⟩)).tid = some "tt0000008" :=
  (C4_tid_prefers_catalog _).2.1 ⟨"tt0000008", "w", "1990", "", ""⟩ rfl (by decide)

/-- Claim C6, failing input: two entries differing only in `subnum` are equal
under the source's `__eq__` (it compares `self.subnum` with itself),
even though their hash keys differ — the code, not the claim, is wrong. -/
theorem C6_subnum_eq_bug :
    JournalEntry.pyEq ⟨1, 0, "A", none, none, none, none, none⟩
        ⟨1, 1, "A", none, none, none, none, none⟩ = true ∧
      (JournalEntry.mk 1 0 "A" none none none none none).subnum ≠
        (JournalEntry.mk 1 1 "A" none none none none none).subnum ∧
      JournalEntry.pyHashKey ⟨1, 0, "A", none, none, none, none, none⟩ ≠
        JournalEntry.pyHashKey ⟨1, 1, "A", none, none, none, none, none⟩ := by
  refine ⟨by decide, by decide, by decide⟩

/-- Claim C5, failing input `"The Matrix (1999) * [tt0133093] [bf:guessed]"`:
the backfill annotation is extracted as `"guessed"` but dropped from the
constructed entry, and — because parse_and_remove_backfill leaves a
trailing space that defeats the `$`-anchored year pattern — the entry
gets title `"The Matrix (1999)"` and no year, instead of the claimed
title `"The Matrix"`, year `"1999"`, backfill `"guessed"`. -/
theorem C5_matrix_line_eval :
    parse_line_entries "The Matrix (1999) * [tt0133093] [bf:guessed]" 1 =
        [⟨1, 0, "The Matrix (1999)", some "⭐", none, some "tt0133093"⟩] ∧
      (parse_and_remove_backfill
          (parse_and_remove_tid
            (parse_and_remove_mark
              "The Matrix (1999) * [tt0133093] [bf:guessed]").2).2) =
        (some "guessed", "The Matrix (1999) ") := by
  refine ⟨by decide, by decide⟩

/-- Claim C2: an entry whose explicit identifier `_tid` is already present is
passed through `assign_tids` structurally unchanged, whatever the
grouped index contains: on any successful run, the output entry at its
index is the input entry itself. -/
theorem C2_explicit_id_passthrough (m : TYMap) (journal out : List JournalEntry)
    (b : Bool) (hrun : assign_tids m journal = .ok (out, b))
    (i : Nat) (hi : i < journal.length)
    (hex : (journal.get ⟨i, hi⟩)._tid.isSome) :
    out.get? i = some (journal.get ⟨i, hi⟩) := by
  unfold assign_tids at hrun
  by_cases hall : journal.all (fun j => j.tid.isSome) = true
  · rw [if_pos hall] at hrun
    injection hrun with h'
    injection h' with h1 h2
    subst h1
    exact List.get?_eq_get hi
  · rw [if_neg hall] at hrun
    cases hc : assignTidsCore m journal with
    | error e => rw [hc] at hrun; simp at hrun
    | ok out' =>
      rw [hc] at hrun
      injection hrun with h'
      injection h' with h1 h2
      rw [← h1]
      obtain ⟨hlen, hpt⟩ := assignTidsCore_ok_pointwise hc
      have hi' : i < out'.length := by rw [hlen]; exact hi
      have hpe := hpt i hi hi'
      rw [resolveEntry_of_tid_some (tid_isSome_of_explicit hex)] at hpe
      injection hpe with h''
      rw [List.get?_eq_get hi', ← h'']

/-- Claim C2, witness: a concrete run in which the index suggests a different
match for the explicitly-annotated entry, which still passes through. -/
theorem C2_explicit_id_passthrough_witness :
    (assign_tids (group_by_title_year [⟨"tt9", "Up", "2009", "", ""⟩])
          [⟨1, 0, "Up", none, some "2009", some "tt1", none, none⟩,
           ⟨2, 0, "Up", none, some "2009", none, none, none⟩] =
        .ok ([⟨1, 0, "Up", none, some "2009", some "tt1", none, none⟩,
              ⟨2, 0, "Up", none, some "2009", some "tt9", none, none⟩], true)) ∧
      ([⟨1, 0, "Up", none, some "2009", some "tt1", none, none⟩,
        ⟨2, 0, "Up", none, some "2009", some "tt9", none, none⟩] :
          List JournalEntry).get? 0 =
        some ⟨1, 0, "Up", none, some "2009", some "tt1", none, none⟩ := by
  refine ⟨by decide, ?_⟩
  exact C2_explicit_id_passthrough
    (group_by_title_year [⟨"tt9", "Up", "2009", "", ""⟩])
    [⟨1, 0, "Up", none, some "2009", some "tt1", none, none⟩,
     ⟨2, 0, "Up", none, some "2009", none, none, none⟩]
    [⟨1, 0, "Up", none, some "2009", some "tt1", none, none⟩,
     ⟨2, 0, "Up", none, some "2009", some "tt9", none, none⟩]
    true (by decide) 0 (by decide) (by decide)

/-- Claim C3: on a journal in which every entry already has a resolved
identifier, `assign_tids` returns the input journal itself with the
load flag `false` (the grouped index is never loaded or built), and
running it a second time on the result changes nothing. -/
theorem C3_fully_resolved_noop (m : TYMap) (journal : List JournalEntry)
    (hall : ∀ j ∈ journal, j.tid.isSome) :
    assign_tids m journal = .ok (journal, false) ∧
      (match assign_tids m journal with
        | .ok (out, _) => assign_tids m out
        | .error e => .error e) = assign_tids m journal := by
  have hb : journal.all (fun j => j.tid.isSome) = true := by
    rw [List.all_eq_true]
    exact hall
  have h1 : assign_tids m journal = .ok (journal, false) := by
    unfold assign_tids
    rw [if_pos hb]
  refine ⟨h1, ?_⟩
  rw [h1]
  exact h1

/-- Claim C3, witness at a concrete fully-resolved two-entry journal. -/
theorem C3_fully_resolved_noop_witness :
    assign_tids (group_by_title_year [⟨"tt9", "Up", "2009", "", ""⟩])
        [⟨1, 0, "Up", none, some "2009", some "tt1", none, none⟩,
         ⟨2, 0, "X", none, none, some "tt2", none, none⟩] =
      .ok ([⟨1, 0, "Up", none, some "2009", some "tt1", none, none⟩,
            ⟨2, 0, "X", none, none, some "tt2", none, none⟩], false) :=
  (C3_fully_resolved_noop _ _ (by decide)).1

/-- Claim C7: an entry with no explicit identifier whose `(title.lower(),
year)` key has no bucket (or an empty one) in the grouped index passes
through the linker loop unchanged and raises no error; on a journal
consisting of that entry, `assign_tids` succeeds and returns it as is
(having consulted the index). -/
theorem C7_zero_matches_passthrough (m : TYMap) (j : JournalEntry)
    (htid : j.tid = none)
    (hz : lookupTY m (pyLower j.title, j.year) = none ∨
      lookupTY m (pyLower j.title, j.year) = some []) :
    resolveEntry m j = .ok j ∧ assign_tids m [j] = .ok ([j], true) := by
  have hre : resolveEntry m j = .ok j := by
    unfold resolveEntry
    rw [htid]
    cases hz with
    | inl h => rw [h]; rfl
    | inr h => rw [h]; rfl
  refine ⟨hre, ?_⟩
  unfold assign_tids
  have hb : ([j].all fun j => j.tid.isSome) = false := by
    simp [htid]
  rw [hb]
  simp only [Bool.false_eq_true, if_false]
  rw [assignTidsCore, hre, assignTidsCore]

/-- Claim C7, witness: the spec's own example — the catalog lacks
`("nonexistent movie", "1950")` and the journal holds
`"Nonexistent Movie (1950)"`. -/
theorem C7_zero_matches_passthrough_witness :
    resolveEntry (group_by_title_year [⟨"tt1", "Up", "2009", "", ""⟩])
        ⟨1, 0, "Nonexistent Movie", none, some "1950", none, none, none⟩ =
      .ok ⟨1, 0, "Nonexistent Movie", none, some "1950", none, none, none⟩ :=
  (C7_zero_matches_passthrough _ _ (by decide) (Or.inl (by decide))).1

/-- All fields except `_tid` agree (the frame of the first linker
stage). -/
def sameExceptTid (a b : JournalEntry) : Prop :=
  a.position = b.position ∧ a.subnum = b.subnum ∧ a.title = b.title ∧
    a.mark = b.mark ∧ a.year = b.year ∧ a.backfill = b.backfill ∧ a.imdb = b.imdb

/-- All fields except `imdb` agree (the frame of the second linker
stage). -/
def sameExceptImdb (a b : JournalEntry) : Prop :=
  a.position = b.position ∧ a.subnum = b.subnum ∧ a.title = b.title ∧
    a.mark = b.mark ∧ a.year = b.year ∧ a._tid = b._tid ∧ a.backfill = b.backfill

theorem get_map' {α β : Type} (f : α → β) :
    ∀ (l : List α) (i : Nat) (h1 : i < l.length) (h2 : i < (l.map f).length),
      (l.map f).get ⟨i, h2⟩ = f (l.get ⟨i, h1⟩)
  | _ :: _, 0, _, _ => rfl
  | _ :: l, Nat.succ i, h1, h2 =>
    get_map' f l i (Nat.lt_of_succ_lt_succ h1) (Nat.lt_of_succ_lt_succ h2)
  | [], i, h1, _ => absurd h1 (Nat.not_lt_zero i)

theorem enrichEntry_frame (d : List (String × ImdbEntry)) (j : JournalEntry) :
    sameExceptImdb j (enrichEntry d j) := by
  unfold enrichEntry
  cases hji : j.imdb with
  | some mm => exact ⟨rfl, rfl, rfl, rfl, rfl, rfl, rfl⟩
  | none =>
    cases hjt : j.tid with
    | none => exact ⟨rfl, rfl, rfl, rfl, rfl, rfl, rfl⟩
    | some t =>
      dsimp only
      by_cases hte : t ≠ ""
      · rw [if_pos hte]
        cases lookupTid d t with
        | some mfound => exact ⟨rfl, rfl, rfl, rfl, rfl, rfl, rfl⟩
        | none => exact ⟨rfl, rfl, rfl, rfl, rfl, rfl, rfl⟩
      · rw [if_neg hte]
        exact ⟨rfl, rfl, rfl, rfl, rfl, rfl, rfl⟩

theorem resolveEntry_frame {m : TYMap} {j j' : JournalEntry}
    (h : resolveEntry m j = .ok j') : sameExceptTid j j' := by
  unfold resolveEntry at h
  by_cases ht : j.tid.isSome
  · rw [if_pos ht] at h
    injection h with h'
    subst h'
    exact ⟨rfl, rfl, rfl, rfl, rfl, rfl, rfl⟩
  · rw [if_neg ht] at h
    split at h
    · injection h with h'; subst h'; exact ⟨rfl, rfl, rfl, rfl, rfl, rfl, rfl⟩
    · injection h with h'; subst h'; exact ⟨rfl, rfl, rfl, rfl, rfl, rfl, rfl⟩
    · injection h with h'
      subst h'
      exact ⟨rfl, rfl, rfl, rfl, rfl, rfl, rfl⟩
    · simp at h

/-- Claim C10: both linker stages are frame-preserving and keep the list's
length and order — on any successful `assign_tids` run each output
entry agrees with its input entry on every field but `_tid`, and each
`assign_imdbs` output entry agrees with its input entry on every field
but `imdb`. -/
theorem C10_frame_preservation (m : TYMap) (d : List (String × ImdbEntry))
    (journal out : List JournalEntry) (b : Bool)
    (hrun : assign_tids m journal = .ok (out, b)) :
    (out.length = journal.length ∧
      ∀ i (h1 : i < journal.length) (h2 : i < out.length),
        sameExceptTid (journal.get ⟨i, h1⟩) (out.get ⟨i, h2⟩)) ∧
      ((assign_imdbs d journal).length = journal.length ∧
        ∀ i (h1 : i < journal.length) (h2 : i < (assign_imdbs d journal).length),
          sameExceptImdb (journal.get ⟨i, h1⟩) ((assign_imdbs d journal).get ⟨i, h2⟩)) := by
  constructor
  · unfold assign_tids at hrun
    by_cases hall : journal.all (fun j => j.tid.isSome) = true
    · rw [if_pos hall] at hrun
      injection hrun with h'
      injection h' with h1 h2
      subst h1
      exact ⟨rfl, fun i hA hB => ⟨rfl, rfl, rfl, rfl, rfl, rfl, rfl⟩⟩
    · rw [if_neg hall] at hrun
      cases hc : assignTidsCore m journal with
      | error e => rw [hc] at hrun; simp at hrun
      | ok out' =>
        rw [hc] at hrun
        injection hrun with h'
        injection h' with h1 h2
        subst h1
        obtain ⟨hlen, hpt⟩ := assignTidsCore_ok_pointwise hc
        exact ⟨hlen, fun i h1 h2 => resolveEntry_frame (hpt i h1 h2)⟩
  · unfold assign_imdbs
    refine ⟨by simp, fun i h1 h2 => ?_⟩
    rw [get_map' (enrichEntry d) journal i h1 h2]
    exact enrichEntry_frame d (journal.get ⟨i, h1⟩)

/-- Claim C10, witness: a concrete run of both stages. -/
theorem C10_frame_preservation_witness :
    ((([⟨1, 0, "Up", none, some "2009", some "tt1", none, none⟩] :
          List JournalEntry).length = 1) ∧
        sameExceptTid
          (JournalEntry.mk 1 0 "Up" none (some "2009") (some "tt1") none none)
          (JournalEntry.mk 1 0 "Up" none (some "2009") (some "tt1") none none)) := by
  have h := C10_frame_preservation (group_by_title_year []) []
    [⟨1, 0, "Up", none, some "2009", some "tt1", none, none⟩]
    [⟨1, 0, "Up", none, some "2009", some "tt1", none, none⟩] false (by decide)
  exact ⟨h.1.1, by
    have := h.1.2 0 (by decide) (by decide)
    simpa using this⟩

theorem resolveEntry_multi_error {m : TYMap} {j : JournalEntry} {ms : List ImdbEntry}
    (htid : j.tid = none)
    (hlk : lookupTY m (pyLower j.title, j.year) = some ms)
    (hlen : 2 ≤ ms.length) :
    resolveEntry m j = .error ⟨j.title, ms⟩ := by
  obtain ⟨a, ms', rfl⟩ : ∃ a ms', ms = a :: ms' := by
    cases ms with
    | nil => simp at hlen
    | cons a t => exact ⟨a, t, rfl⟩
  obtain ⟨b, ms'', rfl⟩ : ∃ b ms'', ms' = b :: ms'' := by
    cases ms' with
    | nil => simp at hlen
    | cons b t => exact ⟨b, t, rfl⟩
  unfold resolveEntry
  rw [htid]
  simp only [Option.isSome_none, Bool.false_eq_true, if_false]
  rw [hlk]

theorem assignTidsCore_append_error {m : TYMap} {j : JournalEntry} {e : AmbiguousMatch}
    (hj : resolveEntry m j = .error e) :
    ∀ (pre post : List JournalEntry),
      (∀ p ∈ pre, ∃ p', resolveEntry m p = .ok p') →
      assignTidsCore m (pre ++ j :: post) = .error e := by
  intro pre
  induction pre with
  | nil =>
    intro post _
    rw [List.nil_append, assignTidsCore, hj]
  | cons p pre' ih =>
    intro post hpre
    obtain ⟨p', hp'⟩ := hpre p (by simp)
    rw [List.cons_append, assignTidsCore, hp',
      ih post (fun q hq => hpre q (by simp [hq]))]

/-- Claim C1, counterexample: the ambiguity error carries only the entry's
title and the candidate catalog entries — not the entry's position.
Two one-entry journals whose entries differ only in position produce
the very same error value, so the error cannot identify the position,
refuting the claim as stated. -/
theorem C1_counterexample :
    assign_tids
        (group_by_title_year
          [⟨"tt0000001", "Dup", "2000", "", ""⟩, ⟨"tt0000002", "Dup", "2000", "", ""⟩])
        [⟨1, 0, "Dup", none, some "2000", none, none, none⟩] =
      .error ⟨"Dup", [⟨"tt0000001", "Dup", "2000", "", ""⟩,
        ⟨"tt0000002", "Dup", "2000", "", ""⟩]⟩ ∧
    assign_tids
        (group_by_title_year
          [⟨"tt0000001", "Dup", "2000", "", ""⟩, ⟨"tt0000002", "Dup", "2000", "", ""⟩])
        [⟨2, 0, "Dup", none, some "2000", none, none, none⟩] =
      .error ⟨"Dup", [⟨"tt0000001", "Dup", "2000", "", ""⟩,
        ⟨"tt0000002", "Dup", "2000", "", ""⟩]⟩ ∧
    (1 : Nat) ≠ 2 := by
  refine ⟨by decide, by decide, by decide⟩

/-- Claim C1, amended: for any grouped index, an entry lacking a resolved
identifier whose key maps to two or more catalog entries makes
`assign_tids` fail fast — provided the entries before it pass their own
lookup — with an ambiguity error identifying the entry's title and the
full candidate list (hence the candidate catalog ids), though not the
entry's position. -/
theorem C1_ambiguity_error (m : TYMap) (pre post : List JournalEntry)
    (j : JournalEntry) (ms : List ImdbEntry)
    (hpre : ∀ p ∈ pre, ∃ p', resolveEntry m p = .ok p')
    (htid : j.tid = none)
    (hlk : lookupTY m (pyLower j.title, j.year) = some ms)
    (hlen : 2 ≤ ms.length) :
    assign_tids m (pre ++ j :: post) = .error ⟨j.title, ms⟩ := by
  have hre := resolveEntry_multi_error htid hlk hlen
  have hb : ((pre ++ j :: post).all fun x => x.tid.isSome) = false := by
    simp [List.all_append, htid]
  unfold assign_tids
  rw [hb]
  simp only [Bool.false_eq_true, if_false]
  rw [assignTidsCore_append_error hre pre post hpre]

/-- Claim C1, witness for the amended theorem at a concrete ambiguous
catalog. -/
theorem C1_ambiguity_error_witness :
    assign_tids
        (group_by_title_year
          [⟨"tt0000011", "Twin", "1984", "", ""⟩, ⟨"tt0000012", "Twin", "1984", "", ""⟩])
        [⟨5, 0, "Twin", none, some "1984", none, none, none⟩] =
      .error ⟨"Twin", [⟨"tt0000011", "Twin", "1984", "", ""⟩,
        ⟨"tt0000012", "Twin", "1984", "", ""⟩]⟩ :=
  C1_ambiguity_error
    (group_by_title_year
      [⟨"tt0000011", "Twin", "1984", "", ""⟩, ⟨"tt0000012", "Twin", "1984", "", ""⟩])
    [] []
    ⟨5, 0, "Twin", none, some "1984", none, none, none⟩
    [⟨"tt0000011", "Twin", "1984", "", ""⟩, ⟨"tt0000012", "Twin", "1984", "", ""⟩]
    (by simp) (by decide) (by decide) (by decide)

theorem parse_single_entry_subnum (line : String) (num subnum : Nat) :
    (parse_single_entry line num subnum).subnum = subnum := by
  unfold parse_single_entry
  dsimp only
  split <;> rfl

/-- Claim C8: the line `"Alien (1979) :: Aliens ('86)"` parses to exactly the
two claimed entries (subnums 0 and 1, both position 1, the leading
quote of `'86` stripped); in general a line is split on the literal
`" :: "` and the i-th segment's entry gets `subnum = i`. -/
theorem C8_segment_splitting :
    parse_line_entries "Alien (1979) :: Aliens ('86)" 1 =
        [⟨1, 0, "Alien", none, some "1979", none⟩,
         ⟨1, 1, "Aliens", none, some "86", none⟩] ∧
      ∀ (line : String) (num : Nat),
        (parse_line_entries line num).map LogEntry.subnum =
          List.range (pySplit " :: ".data line.data).length := by
  refine ⟨by decide, fun line num => ?_⟩
  unfold parse_line_entries
  rw [List.map_map]
  have hcomp :
      (LogEntry.subnum ∘ fun p : Nat × List Char =>
        parse_single_entry (String.mk p.2) num p.1) = Prod.fst := by
    funext p
    exact parse_single_entry_subnum (String.mk p.2) num p.1
  rw [hcomp, List.enum_map_fst]

theorem lookupTY_addToGroup (acc : TYMap) (k' : String × Option String)
    (e : ImdbEntry) (k : String × Option String) :
    (lookupTY (addToGroup acc k' e) k).getD [] =
      (lookupTY acc k).getD [] ++ (if k' = k then [e] else []) := by
  induction acc with
  | nil =>
    by_cases h : k' = k
    · simp [addToGroup, lookupTY, h]
    · simp [addToGroup, lookupTY, h]
  | cons hd tl ih =>
    obtain ⟨k0, v⟩ := hd
    by_cases h0 : k0 = k'
    · subst h0
      by_cases h0k : k0 = k
      · subst h0k
        simp [addToGroup, lookupTY]
      · simp [addToGroup, lookupTY, h0k]
    · by_cases h0k : k0 = k
      · subst h0k
        have hk' : k' ≠ k0 := fun h => h0 h.symm
        simp [addToGroup, lookupTY, h0, hk']
      · simp [addToGroup, lookupTY, h0, h0k, ih]

theorem lookupTY_foldl (l : List ImdbEntry) :
    ∀ (acc : TYMap) (k : String × Option String),
      (lookupTY (l.foldl (fun d m => addToGroup d (groupKey m) m) acc) k).getD [] =
        (lookupTY acc k).getD [] ++ l.filter (fun e => groupKey e = k) := by
  induction l with
  | nil => intro acc k; simp
  | cons e l ih =>
    intro acc k
    rw [List.foldl_cons, ih]
    rw [lookupTY_addToGroup, List.append_assoc]
    congr 1
    by_cases h : groupKey e = k
    · simp [List.filter, h]
    · simp [List.filter, h]

/-- Claim C9: in the grouped index built from any catalog list, the bucket
read off at any key holds exactly the catalog entries whose own
`(title.lower(), year)` equals that key, in their order of appearance —
so every catalog entry lands in exactly one bucket, its own. -/
theorem C9_grouping_invariant (l : List ImdbEntry) (k : String × Option String) :
    (lookupTY (group_by_title_year l) k).getD [] =
      l.filter (fun e => groupKey e = k) := by
  have h := lookupTY_foldl l [] k
  simpa [group_by_title_year, lookupTY] using h

end MovieJournal
